import Mathlib

/-!
Shallow embedding of the control-plane proxy code in `src/ais/prxdl.go`
(package `ais`, AIStore).  Pure Lean functions mirror the Go functions;
HTTP fan-out results, listener snapshots and request bodies appear as
explicit inputs; stateful code is modelled as explicit state passing.
Helpers of the repository that live outside `src/ais` (for example
`downloader.DlStatusResp.Aggregate`, `bucketMD.validateUUID`, `staffIC`)
are modelled from the specification and carry a doc comment saying so.
-/

namespace AIS

/-- HTTP methods used by the proxy handlers. -/
inductive Method
| get
| put
| delete
| head
| post
deriving DecidableEq, Repr

/-- net/http `StatusOK`. -/
def StatusOK : Nat := 200

/-- net/http `StatusMovedPermanently` (GET object redirect). -/
def StatusMovedPermanently : Nat := 301

/-- net/http `StatusTemporaryRedirect` (PUT/DELETE/HEAD object redirect). -/
def StatusTemporaryRedirect : Nat := 307

/-- net/http `StatusBadRequest`. -/
def StatusBadRequest : Nat := 400

/-- net/http `StatusNotFound`. -/
def StatusNotFound : Nat := 404

/-- net/http `StatusInternalServerError`. -/
def StatusInternalServerError : Nat := 500

/-- Bucket metadata (`bucketMD`): immutable cluster UUID and monotonic version.
Only the fields the verified claims depend on are carried. -/
structure BucketMD where
uuid : String
version : Nat
deriving DecidableEq, Repr

/-- Rebalance metadata (`rebMD`): monotonic version. -/
structure RebMD where
version : Nat
deriving DecidableEq, Repr

/-- Cluster map (`smapX`): version, primary proxy id, proxy ids, target ids,
information-council member ids. -/
structure SmapX where
version : Nat
primary : String
pmap : List String
tmap : List String
ic : List String
deriving DecidableEq, Repr

/-- One replicated-metadata element of a metasync wave (a `revsPair` payload). -/
inductive Revs
| smapR (s : SmapX)
| bmdR (b : BucketMD)
| rmdR (r : RebMD)
deriving DecidableEq, Repr

namespace Download

/-- `downloader.DlAdminBody`: fields of the admin request body that the proxy
branches on. -/
structure DlAdminBody where
id : String
onlyActiveTasks : Bool
deriving DecidableEq, Repr

/-- Errors surfaced by `broadcastDownloadAdminRequest`.  `nodeErr` carries a
per-node call error (`res.err`); `noNodes` is `cmn.NewNoNodesError(cmn.Target)`. -/
inductive AdminErr
| nodeErr (s : String)
| noNodes
deriving DecidableEq, Repr

/-- One entry of the broadcast result channel (`callResult`): HTTP status,
call error, and the decoded response payload (abstract type `σ`, standing for
the raw bytes `res.bytes`). -/
structure CallRes (σ : Type) where
status : Nat
err : Option AdminErr
payload : σ
deriving DecidableEq, Repr

/-- Modelled from the spec: `downloader.DlStatusResp.Aggregate` (the downloader
package is not under `src/`).  The spec defines it only as a commutative,
associative per-payload operator; scenario (d) of the spec aggregates the two
snapshots `{T1:S1, T2:S2}` to `Aggregate(S1,S2)`, so a nil receiver yields its
argument.  The pairwise operator itself stays abstract (`agg`); this function
mirrors the source line `resp = resp.Aggregate(*dlStatus)`. -/
def aggregateFold {σ : Type} (agg : σ → σ → σ) (acc : Option σ) (s : σ) : Option σ :=
match acc with
| none => some s
| some a => some (agg a s)

/-- Associative-list update used to model `aggregate[k] = v` on a Go map. -/
def assocPut {σ : Type} (m : List (String × σ)) (k : String) (v : σ) : List (String × σ) :=
match m with
| [] => [(k, v)]
| (k0, v0) :: rest => if k0 = k then (k, v) :: rest else (k0, v0) :: assocPut rest k v

/-- The `msg.ID == ""` merge of per-target job maps: for every key of every
decoded response, `if oldMetric, ok := aggregate[k]; ok { v.Aggregate(oldMetric) };
aggregate[k] = v` (the per-pair operator `aggJob` models `DlJobInfo.Aggregate`,
which lives outside `src/`). -/
def mergeJobMaps {σ : Type} (aggJob : σ → σ → σ) (resps : List (List (String × σ))) :
    List (String × σ) :=
resps.foldl
  (fun acc resp =>
    resp.foldl
      (fun m kv =>
        let v := match m.lookup kv.1 with
          | some oldMetric => aggJob kv.2 oldMetric
          | none => kv.2
        assocPut m kv.1 v)
      acc)
  []

/-- Result-collection loop of `broadcastDownloadAdminRequest` (src/ais/prxdl.go
lines 67-81): a `StatusOK` result joins `validResponses`; any other non-404
status aborts the loop, propagating that result's status and error; a 404 bumps
`notFoundCnt` and records the error. -/
def collectLoop {σ : Type} (results valid : List (CallRes σ)) (notFoundCnt : Nat)
    (err : Option AdminErr) :
    Except (Nat × Option AdminErr) (List (CallRes σ) × Nat × Option AdminErr) :=
match results with
| [] => .ok (valid, notFoundCnt, err)
| res :: rest =>
  if res.status = StatusOK then collectLoop rest (valid ++ [res]) notFoundCnt err
  else if res.status ≠ StatusNotFound then .error (res.status, res.err)
  else collectLoop rest valid (notFoundCnt + 1) res.err

/-- Response body of `broadcastDownloadAdminRequest`: the aggregated
`DlStatusResp` (GET with non-empty id), the merged job-info map (GET with empty
id), or the first valid response's raw bytes (DELETE). -/
inductive DlBody (σ : Type)
| statusResp (resp : Option σ)
| jobList (jobs : List (String × σ))
| raw (b : σ)
deriving DecidableEq, Repr

/-- Outcome of `broadcastDownloadAdminRequest`: body, HTTP status, error, and
whether a broadcast to the targets was issued. -/
structure DlAdminOut (σ : Type) where
body : Option (DlBody σ)
status : Nat
err : Option AdminErr
bcast : Bool
deriving DecidableEq, Repr

/-- Dispatch of `broadcastDownloadAdminRequest` after the collection loop
(src/ais/prxdl.go lines 83-129) on the surviving `validResponses`,
`notFoundCnt` and last 404 error: all-404 yields 404; otherwise the valid
(200) responses are combined per method: GET with empty id merges the decoded
job maps (`decodeJobs` models the `jsoniter.Unmarshal` of `res.bytes`, decode
failures elided), GET with a non-empty id folds `DlStatusResp.Aggregate`,
DELETE returns the first valid response (a panic of `validResponses[0]` on an
empty list cannot be reached).  The unreachable method default returns 500
(`cmn.AssertMsg(false)`). -/
def dlFinish {σ : Type} (aggStatus : σ → σ → σ)
    (decodeJobs : σ → List (String × σ)) (aggJob : σ → σ → σ)
    (method : Method) (msg : DlAdminBody) (results valid : List (CallRes σ))
    (notFoundCnt : Nat) (err : Option AdminErr) : DlAdminOut σ :=
if notFoundCnt = results.length then ⟨none, StatusNotFound, err, true⟩
else
  match method with
  | .get =>
    if msg.id = "" then
      ⟨some (.jobList (mergeJobMaps aggJob (valid.map (fun r => decodeJobs r.payload)))),
        StatusOK, none, true⟩
    else
      ⟨some (.statusResp (valid.foldl (fun acc r => aggregateFold aggStatus acc r.payload) none)),
        StatusOK, none, true⟩
  | .delete =>
    match valid with
    | res :: _ => ⟨some (.raw res.payload), res.status, res.err, true⟩
    | [] => ⟨none, StatusInternalServerError, none, true⟩
  | _ => ⟨none, StatusInternalServerError, none, true⟩

/-- Broadcast part of `broadcastDownloadAdminRequest` (src/ais/prxdl.go lines
51-129), taking the fan-out results as input.  Zero responses yield 400 with a
no-nodes error; the collection loop may abort on a non-404 failure; otherwise
`dlFinish` combines the surviving valid responses. -/
def dlBroadcastPhase {σ : Type} (aggStatus : σ → σ → σ)
    (decodeJobs : σ → List (String × σ)) (aggJob : σ → σ → σ)
    (method : Method) (msg : DlAdminBody) (results : List (CallRes σ)) : DlAdminOut σ :=
if results.length = 0 then ⟨none, StatusBadRequest, some .noNodes, true⟩
else
  match collectLoop results [] 0 none with
  | .error (status, err) => ⟨none, status, err, true⟩
  | .ok (valid, notFoundCnt, err) =>
    dlFinish aggStatus decodeJobs aggJob method msg results valid notFoundCnt err

/-- `broadcastDownloadAdminRequest` (src/ais/prxdl.go lines 22-130).
`queryStats` is the result of `p.notifs.queryStats(msg.ID)` (`none` when no
notification listener is held for the id); its per-target `DlStatusResp`
snapshots are listed in the listener's iteration order.  When the request is a
GET for a non-empty id asking only for active tasks and the listener exists,
the answer is the local aggregate and no broadcast is issued; otherwise the
request is fanned out and `results` are processed by `dlBroadcastPhase`. -/
def broadcastDownloadAdminRequest {σ : Type} (aggStatus : σ → σ → σ)
    (decodeJobs : σ → List (String × σ)) (aggJob : σ → σ → σ)
    (method : Method) (msg : DlAdminBody) (queryStats : Option (List σ))
    (results : List (CallRes σ)) : DlAdminOut σ :=
if msg.id ≠ "" ∧ method = Method.get ∧ msg.onlyActiveTasks = true then
  match queryStats with
  | some stats =>
    ⟨some (.statusResp (stats.foldl (aggregateFold aggStatus) none)), StatusOK, none, false⟩
  | none => dlBroadcastPhase aggStatus decodeJobs aggJob method msg results
else dlBroadcastPhase aggStatus decodeJobs aggJob method msg results

end Download

namespace Routing

/-- The three networks of a node (`cmn.NetworkPublic`, `cmn.NetworkIntraControl`,
`cmn.NetworkIntraData`). -/
inductive Network
| pub
| intraControl
| intraData
deriving DecidableEq, Repr

/-- Node descriptor (`cluster.Snode`): id and the direct URL of each network. -/
structure Snode where
id : String
pubURL : String
controlURL : String
dataURL : String
deriving DecidableEq, Repr

/-- `si.URL(network)`: the node's direct URL on the given network. -/
def Snode.url (si : Snode) : Network → String
| .pub => si.pubURL
| .intraControl => si.controlURL
| .intraData => si.dataURL

/-- The parts of an `http.Request` that `redirectURL` reads. -/
structure Request where
path : String
rawQuery : String
remoteAddr : String
deriving DecidableEq, Repr

/-- The proxy fields `redirectURL` reads: `p.si.ID()` and `p.si.LocalNet`.
`localNetContains` models `LocalNet.Contains` applied to a parsed remote IP;
it is `none` when no cluster CIDR is configured, and the membership test
returns false for an address `net.ParseIP` cannot parse. -/
structure ProxyInfo where
id : String
localNetContains : Option (String → Bool)

/-- `strings.Index(remote, ":")` trimming of `r.RemoteAddr`: keep everything
before the first colon. -/
def stripPort (remote : String) : String :=
String.mk (remote.toList.takeWhile (fun c => c ≠ ':'))

/-- `cmn.UnixNano2S(ts.UnixNano())`: decimal rendering of the request start
time. -/
def unixNano2S (ts : Nat) : String := toString ts

/-- Modelled from the spec: the names of the two query parameters appended by
`redirectURL` are the `cmn.URLParamProxyID` and `cmn.URLParamUnixTime`
constants, which live outside `src/`; section 6 of the spec names them
`proxy-id` and `unix-time`.  `url.Values.Encode` emits the keys sorted, and
`proxy-id` sorts before `unix-time`; node ids and decimal timestamps need no
percent-escaping. -/
def proxyTimeQueryEncode (pid ts : String) : String :=
"proxy-id=" ++ pid ++ "&unix-time=" ++ ts

/-- Node-URL selection inside `redirectURL` (src/ais/prxdl.go lines 1881-1897):
the public URL when no cluster CIDR is configured or the client is outside it,
else the URL of the requested network. -/
def nodeURLFor (p : ProxyInfo) (r : Request) (si : Snode) (netName : Network) : String :=
match p.localNetContains with
| none => si.url .pub
| some lanContains =>
  if lanContains (stripPort r.remoteAddr) then si.url netName else si.url .pub

/-- `redirectURL` (src/ais/prxdl.go lines 1876-1907): node URL plus the original
path, the original raw query when non-empty, and the encoded `proxy-id` /
`unix-time` parameters. -/
def redirectURL (p : ProxyInfo) (r : Request) (si : Snode) (ts : Nat)
    (netName : Network) : String :=
let nodeURL := nodeURLFor p r si netName
let redirect := nodeURL ++ r.path ++ "?"
let redirect := if r.rawQuery ≠ "" then redirect ++ r.rawQuery ++ "&" else redirect
redirect ++ proxyTimeQueryEncode p.id (unixNano2S ts)

/-- An HTTP redirect response: `Location` URL and status code. -/
structure Redirect where
location : String
status : Nat
deriving DecidableEq, Repr

/-- Redirect tail of `httpobjget` (src/ais/prxdl.go lines 684-695): 301 to the
intra-data redirect URL of the hrw-selected target.  The preceding validation,
permission and hrw steps either abort the request or produce `si`. -/
def httpobjget (p : ProxyInfo) (r : Request) (si : Snode) (ts : Nat) : Redirect :=
⟨redirectURL p r si ts .intraData, StatusMovedPermanently⟩

/-- Redirect tail of `httpobjput` (src/ais/prxdl.go lines 775-776): 307 to the
intra-data redirect URL of the selected target. -/
def httpobjput (p : ProxyInfo) (r : Request) (si : Snode) (ts : Nat) : Redirect :=
⟨redirectURL p r si ts .intraData, StatusTemporaryRedirect⟩

/-- Redirect tail of `httpobjdelete` (src/ais/prxdl.go lines 824-825): 307 to
the intra-control redirect URL of the selected target. -/
def httpobjdelete (p : ProxyInfo) (r : Request) (si : Snode) (ts : Nat) : Redirect :=
⟨redirectURL p r si ts .intraControl, StatusTemporaryRedirect⟩

/-- Redirect tail of `httpobjhead` (src/ais/prxdl.go lines 1727-1731): 307 to
the intra-control redirect URL; when the request's check-exists query flag
parses true (`checkExists`), the handler appends one more
`check-exists=true` parameter (`cmn.URLParamCheckExists`; spec section 6 names
it `check-exists`). -/
def httpobjhead (checkExists : Bool) (p : ProxyInfo) (r : Request) (si : Snode)
    (ts : Nat) : Redirect :=
let u := redirectURL p r si ts .intraControl
⟨if checkExists then u ++ "&check-exists=true" else u, StatusTemporaryRedirect⟩

end Routing

namespace Primary

/-- Modelled from the spec: the information-council size bound (the IC is a
bounded subset of the proxies, section 3; the bound's value lives outside
`src/`). -/
def icSize : Nat := 3

/-- Modelled from the spec: `staffIC` re-staffs the information council as a
bounded subset of the proxies (spec sections 3 and 4.K); the concrete selection
rule is not part of `src/ais`, so the first `icSize` proxy ids are taken. -/
def staffIC (clone : SmapX) : SmapX :=
{ clone with ic := clone.pmap.take icSize }

/-- Modelled from the spec: `smapX.delProxy` removes a proxy id from the proxies
map (the smapX methods live outside `src/ais`). -/
def delProxy (clone : SmapX) (pid : String) : SmapX :=
{ clone with pmap := clone.pmap.filter (fun q => q ≠ pid) }

/-- `becomeNewPrimary` (src/ais/prxdl.go lines 2613-2651).  The owner `modify`
is modelled from spec section 4.A: clone, apply the mutation, install, then run
the post hook outside the lock.  The mutation removes the failed primary when
one is named, installs this proxy as `Primary`, adds exactly 100 to the
version, deletes the removed id from the IC and re-staffs the IC; the post hook
emits one metasync wave pairing the new Smap with the current BMD and RMD.
Returns the installed Smap and the wave. -/
def becomeNewPrimary (self : String) (proxyIDToRemove : String) (smap : SmapX)
    (bmd : BucketMD) (rmd : RebMD) : SmapX × List Revs :=
let clone := smap
let clone := if proxyIDToRemove ≠ "" then delProxy clone proxyIDToRemove else clone
let clone := { clone with primary := self, version := clone.version + 100 }
let clone := { clone with ic := clone.ic.filter (fun q => q ≠ proxyIDToRemove) }
let clone := staffIC clone
(clone, [Revs.smapR clone, Revs.bmdR bmd, Revs.rmdR rmd])

/-- Outcome of `httpdaesetprimaryproxy`: the node's Smap afterwards, the
metasync wave it emitted (empty when none), and the error response when the
request was rejected. -/
structure DaeSetOut where
smap : SmapX
wave : List Revs
resp : Option String
deriving DecidableEq, Repr

/-- `httpdaesetprimaryproxy` (src/ais/prxdl.go lines 2553-2611) for the
two-phase flow (the separate `?force=true` forceful-join branch is out of this
model).  `prepare` is the parsed `?prepare` parameter (`none` when
`cmn.ParseBool` failed).  A primary rejects the call; a node designated as the
new primary runs `becomeNewPrimary` only in the commit phase; any other node
answers the prepare call without touching its state and, on commit, installs
the designated proxy as its primary via the owner `modify`. -/
def httpdaesetprimaryproxy (self : String) (smap : SmapX) (bmd : BucketMD)
    (rmd : RebMD) (proxyID : String) (prepare : Option Bool) : DaeSetOut :=
match prepare with
| none => ⟨smap, [], some "failed to parse prepare URL parameter"⟩
| some prepare =>
  if smap.primary = self then
    ⟨smap, [], some "expecting cluster resource when designating primary proxy via API"⟩
  else if self = proxyID then
    if prepare = false then
      let out := becomeNewPrimary self "" smap bmd rmd
      ⟨out.1, out.2, none⟩
    else ⟨smap, [], none⟩
  else if smap.pmap.contains proxyID then
    if prepare = true then ⟨smap, [], none⟩
    else ⟨{ smap with primary := proxyID }, [], none⟩
  else ⟨smap, [], some "cannot set new primary: node not found"⟩

/-- One result of the coordinator's `callAll` fan-out: responder id and call
error. -/
structure PCallRes where
si : String
err : Option String
deriving DecidableEq, Repr

/-- Outcome of `httpclusetprimaryproxy` at the coordinator: its Smap
afterwards, the error response if any, whether the request was forwarded to
the primary, whether the commit-phase fan-out was issued, and whether the
commit phase ended in the fatal new-primary failure (`glog.Fatalf`). -/
structure CluSetOut where
smap : SmapX
resp : Option String
forwarded : Bool
commitIssued : Bool
fatal : Bool
deriving DecidableEq, Repr

/-- `httpclusetprimaryproxy` (src/ais/prxdl.go lines 2653-2710).  The two
fan-outs are oracles: `prepareResults` and `commitResults` list the per-node
results of the prepare-phase and commit-phase `callAll`.  A non-primary
forwards (`forwardCP`); an unknown or self proxy id is rejected; the first
prepare-phase error aborts with an error response before the local commit, so
the commit fan-out is never issued; otherwise the coordinator installs the new
primary locally (`modify`, with `metasyncer.becomeNonPrimary` inside) and runs
the commit fan-out, fatal when the designated new primary reports an error. -/
def httpclusetprimaryproxy (self : String) (smap : SmapX) (proxyid : String)
    (prepareResults commitResults : List PCallRes) : CluSetOut :=
if smap.primary ≠ self then ⟨smap, none, true, false, false⟩
else if smap.pmap.contains proxyid = false then
  ⟨smap, some "new primary proxy not present in the Smap", false, false, false⟩
else if proxyid = self then ⟨smap, none, false, false, false⟩
else
  match prepareResults.find? (fun res => res.err.isSome) with
  | some res =>
    ⟨smap, some ("Failed to set primary: err from " ++ res.si ++ " in the prepare phase"),
      false, false, false⟩
  | none =>
    ⟨{ smap with primary := proxyid }, none, false, true,
      commitResults.any (fun res => res.err.isSome && res.si == proxyid)⟩

end Primary

namespace Meta

/-- Errors of the metadata receivers: a version downgrade attempt, or a
cluster-integrity UUID mismatch. -/
inductive RecvErr
| downgrade
| clusterIntegrity
deriving DecidableEq, Repr

/-- Modelled from the spec: `bucketMD.validateUUID` (outside `src/ais`) fails
with a ClusterIntegrity error exactly when the two UUIDs differ and both sides
have a non-zero version (spec section 4.B). -/
def validateUUID (bmd newBMD : BucketMD) : Option RecvErr :=
if bmd.uuid ≠ newBMD.uuid ∧ bmd.version ≠ 0 ∧ newBMD.version ≠ 0 then
  some RecvErr.clusterIntegrity
else none

/-- `receiveRMD` (src/ais/prxdl.go lines 3548-3569): under the owner lock, a
same-or-lower incoming version leaves the stored RMD unchanged — with a
downgrade error when strictly lower — and a newer version is installed.
Returns the stored RMD afterwards and the error. -/
def receiveRMD (stored newRMD : RebMD) : RebMD × Option RecvErr :=
if newRMD.version ≤ stored.version then
  (stored, if newRMD.version < stored.version then some RecvErr.downgrade else none)
else (newRMD, none)

/-- Outcome of `receiveBMD`: stored BMD afterwards, returned error, and whether
the `cmn.Assert(!isPrimary)` on a UUID mismatch fired (fatal on a primary). -/
structure RecvBMDOut where
stored : BucketMD
err : Option RecvErr
fatal : Bool
deriving DecidableEq, Repr

/-- `receiveBMD` (src/ais/prxdl.go lines 3571-3596): a UUID-mismatch
cluster-integrity error asserts the node is not primary (fatal otherwise) and
is overridden on a non-primary — the incoming BMD is installed and the error
returned; with matching UUIDs a same-or-lower incoming version leaves the
stored BMD unchanged (downgrade error when strictly lower) and a newer one is
installed. -/
def receiveBMD (isPrimary : Bool) (stored newBMD : BucketMD) : RecvBMDOut :=
match validateUUID stored newBMD with
| some cie =>
  if isPrimary then ⟨stored, some cie, true⟩
  else ⟨newBMD, some cie, false⟩
| none =>
  if newBMD.version ≤ stored.version then
    ⟨stored, if newBMD.version < stored.version then some RecvErr.downgrade else none, false⟩
  else ⟨newBMD, none, false⟩

end Meta

namespace Recover

/-- Errors of BMD recovery: no target returned a non-zero BMD (`errNoBMD`),
different UUIDs with no simple majority (`errBmdUUIDSplit`), different UUIDs
with a simple majority (`errTgtBmdUUIDDiffer`). -/
inductive BMDErr
| noBMD
| uuidSplit
| uuidDiffer
deriving DecidableEq, Repr

/-- The `mlist` of `resolveUUIDBMD`: per UUID, the number of responding targets
holding it, skipping zero-version BMDs; UUIDs listed in first-seen order. -/
def bmdCounts (bmds : List BucketMD) : List (String × Nat) :=
bmds.foldl
  (fun acc bmd =>
    if bmd.version = 0 then acc
    else
      match acc.lookup bmd.uuid with
      | some n => Download.assocPut acc bmd.uuid (n + 1)
      | none => acc ++ [(bmd.uuid, 1)])
  []

/-- The `maxor` of `resolveUUIDBMD`: per UUID, the highest-version BMD among
the responses (first seen wins a version tie), skipping zero-version BMDs. -/
def bmdMaxor (bmds : List BucketMD) : List (String × BucketMD) :=
bmds.foldl
  (fun acc bmd =>
    if bmd.version = 0 then acc
    else
      match acc.lookup bmd.uuid with
      | some rbmd =>
        if rbmd.version < bmd.version then Download.assocPut acc bmd.uuid bmd else acc
      | none => acc ++ [(bmd.uuid, bmd)])
  []

/-- `resolveUUIDBMD` (src/ais/prxdl.go lines 3820-3863): build `mlist` and
`maxor`; no non-zero BMD yields `errNoBMD`; pick a UUID of maximal count; a
distinct UUID with the same count is the no-simple-majority split error; more
than one UUID with a simple majority yields the highest-version BMD of the
majority UUID together with the `errTgtBmdUUIDDiffer` error; a single UUID
yields its highest-version BMD with no error. -/
def resolveUUIDBMD (bmds : List BucketMD) : Option BucketMD × Option BMDErr :=
let mlist := bmdCounts bmds
let maxor := bmdMaxor bmds
if mlist.isEmpty then (none, some BMDErr.noBMD)
else
  let best := mlist.foldl (fun (acc : String × Nat) kv => if acc.2 < kv.2 then kv else acc) ("", 0)
  if mlist.any (fun kv => kv.2 == best.2 && kv.1 != best.1) then (none, some BMDErr.uuidSplit)
  else
    (maxor.lookup best.1, if 1 < mlist.length then some BMDErr.uuidDiffer else none)

/-- The gathering loop of `recoverBuckets` (src/ais/prxdl.go lines 3646-3663)
over the successfully responding targets' BMDs: remember the first UUID and the
running fast-path maximum; a differing UUID sets `slowp`.  Returns
`(rbmd, slowp)`, or `none` when no target responded. -/
def gatherBMDs (bmds : List BucketMD) : Option (String × BucketMD × Bool) :=
bmds.foldl
  (fun acc bmd =>
    match acc with
    | none => some (bmd.uuid, bmd, false)
    | some (uuid, rbmd, slowp) =>
      if uuid ≠ bmd.uuid then some (uuid, rbmd, true)
      else if slowp = false ∧ rbmd.version < bmd.version then some (uuid, bmd, slowp)
      else some (uuid, rbmd, slowp))
  none

/-- Outcome of `recoverBuckets`: the error response sent, if any, and the BMD
installed and metasynced, if any. -/
structure RecoverOut where
resp : Option BMDErr
installed : Option BucketMD
synced : Option BucketMD
deriving DecidableEq, Repr

/-- Decision part of `recoverBuckets` (src/ais/prxdl.go lines 3628-3684),
taking the BMDs of the successfully responding targets and the `?force` flag.
On a UUID split (`slowp`) the result of `resolveUUIDBMD` replaces the fast-path
maximum; its error is answered to the client when it is the no-BMD or split
error, or when `force` is unset; the remaining different-uuids-with-majority
error is only logged under `force`.  The surviving BMD gets its version raised
by 100, is installed as the primary's BMD and metasynced.  (With no responding
target the Go code would dereference nil; the model returns an empty
outcome.) -/
def recoverBuckets (bmds : List BucketMD) (force : Bool) : RecoverOut :=
match gatherBMDs bmds with
| none => ⟨none, none, none⟩
| some (_, rbmd0, slowp) =>
  let step : Except BMDErr BucketMD :=
    if slowp then
      match resolveUUIDBMD bmds with
      | (some rbmd, some BMDErr.uuidDiffer) =>
        if force then .ok rbmd else .error BMDErr.uuidDiffer
      | (some rbmd, none) => .ok rbmd
      | (_, some e) => .error e
      | (none, none) => .error BMDErr.noBMD
    else .ok rbmd0
  match step with
  | .error e => ⟨some e, none, none⟩
  | .ok rbmd =>
    let rbmd := { rbmd with version := rbmd.version + 100 }
    ⟨none, some rbmd, some rbmd⟩

end Recover

namespace Forward

/-- Cluster metadata and reverse-proxy state of the node that `forwardCP` can
read or touch: the versions of the metadata owners and the cached primary
reverse-proxy URL (`p.rproxy.primary.url`). -/
structure NodeState where
smapVer : Nat
bmdVer : Nat
rmdVer : Nat
rproxyURL : String
deriving DecidableEq, Repr

/-- Inputs of `forwardCP` derived from the request and the Smap snapshot:
whether the snapshot is valid (`smap != nil && smap.isValid()`), whether this
node is the primary, the primary's public direct URL, the request method, the
explicit `body` argument (`none` models a nil slice) and the marshalled
action message (`none` when `msg` is nil). -/
structure FwdIn where
smapValid : Bool
selfIsPrimary : Bool
primaryURL : String
method : Method
body : Option String
msg : Option String
deriving DecidableEq, Repr

/-- Outcome of `forwardCP`: node state afterwards, the returned `forf` flag,
whether the request was reverse-proxied to the primary, whether an error
response was written instead, the body re-attached to the forwarded request
(`none` when `len(body) == 0` leaves `r.Body` alone) and the `ContentLength`
set alongside it. -/
structure FwdOut where
state : NodeState
forf : Bool
forwarded : Bool
errResp : Bool
attachedBody : Option String
contentLength : Option Nat
deriving DecidableEq, Repr

/-- `forwardCP` (src/ais/prxdl.go lines 1741-1790).  An invalid Smap snapshot
answers an error and returns true; a primary returns false without forwarding;
otherwise a HEAD request's body is dropped (with an error log when non-empty),
a nil body is replaced by the marshalled action message when one is given, the
primary reverse proxy is (re)built for the current primary URL, a non-empty
body is re-attached with `ContentLength` set to exactly its length, and the
request is forwarded. -/
def forwardCP (st : NodeState) (inp : FwdIn) : FwdOut :=
if inp.smapValid = false then ⟨st, true, false, true, none, none⟩
else if inp.selfIsPrimary then ⟨st, false, false, false, none, none⟩
else
  let body : Option String :=
    if inp.method = Method.head then none
    else if inp.body = none then inp.msg
    else inp.body
  let st := { st with rproxyURL := inp.primaryURL }
  match body with
  | some b =>
    if b.length > 0 then ⟨st, true, true, false, some b, some b.length⟩
    else ⟨st, true, true, false, none, none⟩
  | none => ⟨st, true, true, false, none, none⟩

end Forward

namespace Renamed

/-- BMD-owner lock events emitted by `handlePendingRenamedLB`. -/
inductive LockEvt
| lock
| unlock
deriving DecidableEq, Repr

/-- Defer discipline of `handlePendingRenamedLB`: `p.owner.bmd.Lock()` on
entry, `defer p.owner.bmd.Unlock()` appended when the body returns. -/
def withBMDLock (body : List LockEvt × Bool) : List LockEvt × Bool :=
(LockEvt.lock :: body.1 ++ [LockEvt.unlock], body.2)

/-- Body of `handlePendingRenamedLB` between `Lock` and the deferred `Unlock`
(src/ais/prxdl.go lines 2290-2306).  `initOk` is whether `bck.Init` succeeded
(the bucket is still in the BMD); `renamed` is `bck.Props.Renamed`.  A failed
init returns at once (the bucket was already removed); empty `Renamed` props
log an error, call `p.owner.bmd.Unlock()` explicitly and return; otherwise the
bucket is deleted from a clone, the clone installed and metasynced.  The Bool
of the result records whether the bucket was removed and synced. -/
def handlePendingRenamedLBBody (initOk : Bool) (renamed : String) : List LockEvt × Bool :=
if initOk = false then ([], false)
else if renamed = "" then ([LockEvt.unlock], false)
else ([], true)

/-- `handlePendingRenamedLB` (src/ais/prxdl.go lines 2287-2307): the body run
under the entry `Lock` and the deferred `Unlock`. -/
def handlePendingRenamedLB (initOk : Bool) (renamed : String) : List LockEvt × Bool :=
withBMDLock (handlePendingRenamedLBBody initOk renamed)

end Renamed

/-- Claim C3's Location format, following the spec's words: the selected
target's URL, plus the original request path and query, extended with the
proxy-id and unix-time query parameters. -/
def Routing.specClaimedLocation (p : Routing.ProxyInfo) (r : Routing.Request)
    (si : Routing.Snode) (ts : Nat) (netName : Routing.Network) : String :=
Routing.nodeURLFor p r si netName ++ r.path ++ "?" ++
  (if r.rawQuery ≠ "" then r.rawQuery ++ "&" else "") ++
  ("proxy-id=" ++ p.id ++ "&unix-time=" ++ toString ts)

theorem Routing.redirectURL_eq_specClaimedLocation (p : Routing.ProxyInfo)
    (r : Routing.Request) (si : Routing.Snode) (ts : Nat) (netName : Routing.Network) :
    Routing.redirectURL p r si ts netName = Routing.specClaimedLocation p r si ts netName := by
  unfold Routing.redirectURL Routing.specClaimedLocation Routing.proxyTimeQueryEncode
    Routing.unixNano2S
  by_cases h : r.rawQuery = "" <;> simp [h, String.append_assoc]

/-- Claim C10: a download admin broadcast that yields zero results answers 400
with a no-nodes error (src/ais/prxdl.go lines 59-63), for either admin method,
rather than 404 or an empty aggregate. -/
theorem download_admin_no_nodes {σ : Type} (aggStatus : σ → σ → σ)
    (decodeJobs : σ → List (String × σ)) (aggJob : σ → σ → σ) (method : Method)
    (msg : Download.DlAdminBody) :
    Download.broadcastDownloadAdminRequest aggStatus decodeJobs aggJob method msg none [] =
      ⟨none, StatusBadRequest, some Download.AdminErr.noNodes, true⟩ := by
  unfold Download.broadcastDownloadAdminRequest
  split <;> rfl

/-- Claim C2: a GET download admin request with a non-empty id asking only for
active tasks, for which the proxy holds a notification listener, is answered
200 with the aggregate of the listener's per-target snapshots and no broadcast
is issued (src/ais/prxdl.go lines 28-49). -/
theorem download_admin_local_listener {σ : Type} (aggStatus : σ → σ → σ)
    (decodeJobs : σ → List (String × σ)) (aggJob : σ → σ → σ)
    (msg : Download.DlAdminBody) (stats : List σ) (results : List (Download.CallRes σ))
    (hid : msg.id ≠ "") (hact : msg.onlyActiveTasks = true) :
    Download.broadcastDownloadAdminRequest aggStatus decodeJobs aggJob Method.get msg
        (some stats) results =
      ⟨some (.statusResp (stats.foldl (Download.aggregateFold aggStatus) none)),
        StatusOK, none, false⟩ := by
  unfold Download.broadcastDownloadAdminRequest
  have hc : msg.id ≠ "" ∧ Method.get = Method.get ∧ msg.onlyActiveTasks = true :=
    ⟨hid, rfl, hact⟩
  rw [if_pos hc]

theorem download_admin_local_listener_witness :
    Download.broadcastDownloadAdminRequest (σ := Nat) (fun a b => a + b) (fun _ => [])
        (fun a b => a + b) Method.get ⟨"job1", true⟩ (some [3, 4]) [] =
      ⟨some (.statusResp (some 7)), StatusOK, none, false⟩ := by
  have h := download_admin_local_listener (σ := Nat) (fun a b => a + b) (fun _ => [])
    (fun a b => a + b) ⟨"job1", true⟩ [3, 4] [] (by decide) rfl
  exact h.trans (by decide)

/-- Claim C5: in the commit phase of the primary change, `becomeNewPrimary`
with no proxy to remove installs this proxy as the primary, adds exactly 100
to the Smap version, re-staffs the IC, and emits one metasync wave pairing the
new Smap with the current BMD and RMD (src/ais/prxdl.go lines 2613-2651). -/
theorem become_new_primary_commit (self : String) (smap : SmapX) (bmd : BucketMD)
    (rmd : RebMD) :
    (Primary.becomeNewPrimary self "" smap bmd rmd).1.primary = self ∧
    (Primary.becomeNewPrimary self "" smap bmd rmd).1.version = smap.version + 100 ∧
    (Primary.becomeNewPrimary self "" smap bmd rmd).1.ic = smap.pmap.take Primary.icSize ∧
    (Primary.becomeNewPrimary self "" smap bmd rmd).2 =
      [Revs.smapR (Primary.becomeNewPrimary self "" smap bmd rmd).1, Revs.bmdR bmd,
        Revs.rmdR rmd] := by
  simp [Primary.becomeNewPrimary, Primary.staffIC, Primary.delProxy]

/-- Claim C9: `handlePendingRenamedLB` releases the BMD-owner lock twice on the
path where the bucket Init succeeds but its Renamed property is empty — once by
the explicit Unlock and once by the deferred Unlock — and exactly once on every
other path (src/ais/prxdl.go lines 2287-2307). -/
theorem handle_pending_renamed_unlock_count (initOk : Bool) (renamed : String) :
    (Renamed.handlePendingRenamedLB initOk renamed).1.count Renamed.LockEvt.unlock =
      (if initOk = true ∧ renamed = "" then 2 else 1) := by
  cases initOk <;> by_cases h : renamed = "" <;>
    simp [Renamed.handlePendingRenamedLB, Renamed.withBMDLock,
      Renamed.handlePendingRenamedLBBody, h, List.count_cons, List.count_append]

/-- Claim C6: the metadata receivers reject same-or-lower versions —
`receiveRMD` and `receiveBMD` leave the stored copy unchanged when the
incoming version is at most the stored one and return an error exactly when it
is strictly lower — except that a non-primary proxy whose stored BMD UUID
mismatches the incoming one gets the cluster-integrity error and overrides,
installing the newer incoming BMD (src/ais/prxdl.go lines 3548-3596). -/
theorem receive_metadata_version_discipline :
    (∀ stored newRMD : RebMD, newRMD.version ≤ stored.version →
      (Meta.receiveRMD stored newRMD).1 = stored ∧
      ((Meta.receiveRMD stored newRMD).2 ≠ none ↔ newRMD.version < stored.version)) ∧
    (∀ (isPrimary : Bool) (stored newBMD : BucketMD),
      Meta.validateUUID stored newBMD = none → newBMD.version ≤ stored.version →
      (Meta.receiveBMD isPrimary stored newBMD).stored = stored ∧
      ((Meta.receiveBMD isPrimary stored newBMD).err ≠ none ↔
        newBMD.version < stored.version)) ∧
    (∀ stored newBMD : BucketMD, stored.uuid ≠ newBMD.uuid → stored.version ≠ 0 →
      newBMD.version ≠ 0 → stored.version < newBMD.version →
      Meta.receiveBMD false stored newBMD =
        ⟨newBMD, some Meta.RecvErr.clusterIntegrity, false⟩) := by
  refine ⟨fun stored newRMD hle => ?_, fun isPrimary stored newBMD hu hle => ?_,
    fun stored newBMD hu h0 h0n _ => ?_⟩
  · unfold Meta.receiveRMD
    rw [if_pos hle]
    refine ⟨rfl, ?_⟩
    by_cases hlt : newRMD.version < stored.version <;> simp [hlt]
  · unfold Meta.receiveBMD
    rw [hu]
    by_cases hlt : newBMD.version < stored.version <;> simp [if_pos hle, hlt]
  · unfold Meta.receiveBMD Meta.validateUUID
    rw [if_pos ⟨hu, h0, h0n⟩]
    rfl

theorem receive_metadata_version_discipline_witness :
    (Meta.receiveRMD (RebMD.mk 5) (RebMD.mk 4)).1 = RebMD.mk 5 ∧
    ((Meta.receiveRMD (RebMD.mk 5) (RebMD.mk 4)).2 ≠ none ↔ 4 < 5) ∧
    (Meta.receiveBMD false (BucketMD.mk "U" 5) (BucketMD.mk "U" 5)).stored =
      BucketMD.mk "U" 5 ∧
    Meta.receiveBMD false (BucketMD.mk "A" 5) (BucketMD.mk "B" 7) =
      ⟨BucketMD.mk "B" 7, some Meta.RecvErr.clusterIntegrity, false⟩ := by
  obtain ⟨h1, h2, h3⟩ := receive_metadata_version_discipline
  exact ⟨(h1 (RebMD.mk 5) (RebMD.mk 4) (by decide)).1,
    (h1 (RebMD.mk 5) (RebMD.mk 4) (by decide)).2,
    (h2 false (BucketMD.mk "U" 5) (BucketMD.mk "U" 5) (by decide) (by decide)).1,
    h3 (BucketMD.mk "A" 5) (BucketMD.mk "B" 7) (by decide) (by decide) (by decide)
      (by decide)⟩

/-- Claim C8: with a valid Smap snapshot, `forwardCP` on a primary returns
without forwarding and changes nothing; on a non-primary it forwards to the
current primary, mutating none of the cluster metadata, with the effective
message body re-attached and ContentLength exactly the body's length, and with
an empty body for HEAD requests (src/ais/prxdl.go lines 1741-1790). -/
theorem forward_cp_properties (st : Forward.NodeState) (inp : Forward.FwdIn)
    (hvalid : inp.smapValid = true) :
    (inp.selfIsPrimary = true →
      Forward.forwardCP st inp = ⟨st, false, false, false, none, none⟩) ∧
    (inp.selfIsPrimary = false →
      (Forward.forwardCP st inp).forwarded = true ∧
      (Forward.forwardCP st inp).state.rproxyURL = inp.primaryURL ∧
      (Forward.forwardCP st inp).state.smapVer = st.smapVer ∧
      (Forward.forwardCP st inp).state.bmdVer = st.bmdVer ∧
      (Forward.forwardCP st inp).state.rmdVer = st.rmdVer ∧
      (inp.method = Method.head → (Forward.forwardCP st inp).attachedBody = none) ∧
      (∀ b, (Forward.forwardCP st inp).attachedBody = some b →
        (Forward.forwardCP st inp).contentLength = some b.length) ∧
      (∀ b, inp.method ≠ Method.head → inp.body = some b → b ≠ "" →
        (Forward.forwardCP st inp).attachedBody = some b)) := by
  refine ⟨fun hp => ?_, fun hp => ?_⟩
  · unfold Forward.forwardCP
    rw [hvalid, hp]
    simp
  · unfold Forward.forwardCP
    rw [hvalid, hp]
    simp only [Bool.true_eq_false, if_false, Bool.false_eq_true]
    by_cases hh : inp.method = Method.head
    · simp [hh]
    · simp only [hh, if_false]
      cases hb : inp.body with
      | none =>
        cases hmsg : inp.msg with
        | none => simp [hb]
        | some m =>
          by_cases hm : m.length > 0 <;> simp [hb, hm]
      | some b0 =>
        by_cases h0 : b0.length > 0
        · simp [hb, h0, hh]
        · simp [hb, h0, hh]
          cases b0 with
          | mk data =>
            have hd : data = [] :=
              List.length_eq_zero.mp (Nat.eq_zero_of_not_pos h0)
            subst hd
            rfl

theorem forward_cp_properties_witness :
    Forward.forwardCP ⟨7, 8, 9, "old"⟩ ⟨true, true, "http://pri", Method.put, some "abc", none⟩ =
      ⟨⟨7, 8, 9, "old"⟩, false, false, false, none, none⟩ ∧
    (Forward.forwardCP ⟨7, 8, 9, "old"⟩
        ⟨true, false, "http://pri", Method.put, some "abc", none⟩).forwarded = true ∧
    (Forward.forwardCP ⟨7, 8, 9, "old"⟩
        ⟨true, false, "http://pri", Method.put, some "abc", none⟩).attachedBody = some "abc" ∧
    (Forward.forwardCP ⟨7, 8, 9, "old"⟩
        ⟨true, false, "http://pri", Method.head, some "abc", none⟩).attachedBody = none := by
  refine ⟨(forward_cp_properties ⟨7, 8, 9, "old"⟩
    ⟨true, true, "http://pri", Method.put, some "abc", none⟩ rfl).1 rfl, ?_, ?_, ?_⟩
  · exact ((forward_cp_properties ⟨7, 8, 9, "old"⟩
      ⟨true, false, "http://pri", Method.put, some "abc", none⟩ rfl).2 rfl).1
  · exact ((forward_cp_properties ⟨7, 8, 9, "old"⟩
      ⟨true, false, "http://pri", Method.put, some "abc", none⟩ rfl).2
      rfl).2.2.2.2.2.2.2 "abc" (by decide) rfl (by decide)
  · exact ((forward_cp_properties ⟨7, 8, 9, "old"⟩
      ⟨true, false, "http://pri", Method.head, some "abc", none⟩ rfl).2
      rfl).2.2.2.2.2.1 rfl

/-- Claim C4: a prepare-phase failure of the two-phase primary change makes
the coordinator answer an error without installing the new primary in its own
Smap and without issuing the commit-phase fan-out (src/ais/prxdl.go lines
2675-2685); and a node receiving the prepare call itself changes no state and
emits no wave (src/ais/prxdl.go lines 2584-2604). -/
theorem primary_change_prepare_abort :
    (∀ (self : String) (smap : SmapX) (proxyid : String)
        (pres cres : List Primary.PCallRes),
      smap.primary = self → smap.pmap.contains proxyid = true → proxyid ≠ self →
      (∃ r ∈ pres, r.err.isSome = true) →
      (Primary.httpclusetprimaryproxy self smap proxyid pres cres).smap = smap ∧
      (Primary.httpclusetprimaryproxy self smap proxyid pres cres).commitIssued = false ∧
      (Primary.httpclusetprimaryproxy self smap proxyid pres cres).resp.isSome = true) ∧
    (∀ (self : String) (smap : SmapX) (bmd : BucketMD) (rmd : RebMD) (proxyID : String),
      (Primary.httpdaesetprimaryproxy self smap bmd rmd proxyID (some true)).smap = smap ∧
      (Primary.httpdaesetprimaryproxy self smap bmd rmd proxyID (some true)).wave = []) := by
  constructor
  · intro self smap proxyid pres cres hprim hmem hne hex
    have hfind : (pres.find? (fun res => res.err.isSome)).isSome := by
      rw [List.find?_isSome]
      obtain ⟨r, hrmem, hr⟩ := hex
      exact ⟨r, hrmem, hr⟩
    obtain ⟨r0, hr0⟩ := Option.isSome_iff_exists.mp hfind
    unfold Primary.httpclusetprimaryproxy
    rw [if_neg (by simp [hprim]), hmem, if_neg (by decide : ¬(true = false)),
      if_neg hne, hr0]
    exact ⟨rfl, rfl, rfl⟩
  · intro self smap bmd rmd proxyID
    unfold Primary.httpdaesetprimaryproxy
    split_ifs <;> simp

theorem primary_change_prepare_abort_witness :
    (Primary.httpclusetprimaryproxy "p1" ⟨1, "p1", ["p1", "p2"], ["t1"], ["p1"]⟩ "p2"
      [⟨"t1", some "prepare failed"⟩] []).smap = ⟨1, "p1", ["p1", "p2"], ["t1"], ["p1"]⟩ ∧
    (Primary.httpclusetprimaryproxy "p1" ⟨1, "p1", ["p1", "p2"], ["t1"], ["p1"]⟩ "p2"
      [⟨"t1", some "prepare failed"⟩] []).commitIssued = false ∧
    (Primary.httpdaesetprimaryproxy "p2" ⟨1, "p1", ["p1", "p2"], ["t1"], ["p1"]⟩
      ⟨"U", 3⟩ ⟨2⟩ "p2" (some true)).smap = ⟨1, "p1", ["p1", "p2"], ["t1"], ["p1"]⟩ := by
  obtain ⟨h1, h2⟩ := primary_change_prepare_abort
  have ha := h1 "p1" ⟨1, "p1", ["p1", "p2"], ["t1"], ["p1"]⟩ "p2"
    [⟨"t1", some "prepare failed"⟩] [] rfl (by decide) (by decide)
    ⟨⟨"t1", some "prepare failed"⟩, by decide, rfl⟩
  exact ⟨ha.1, ha.2.1,
    (h2 "p2" ⟨1, "p1", ["p1", "p2"], ["t1"], ["p1"]⟩ ⟨"U", 3⟩ ⟨2⟩ "p2").1⟩

/-- Claim C7, counterexample: on the three target BMDs {UUID=A,v=3},
{UUID=A,v=5}, {UUID=B,v=7}, `recoverBuckets` with force unset answers the
different-uuids-WITH-simple-majority error (`errTgtBmdUUIDDiffer`, cie#70) —
UUID A holds two of the three votes — not the claimed no-simple-majority
split error (`errBmdUUIDSplit`). -/
theorem recover_buckets_scenario_counterexample :
    (Recover.recoverBuckets [⟨"A", 3⟩, ⟨"A", 5⟩, ⟨"B", 7⟩] false).resp =
      some Recover.BMDErr.uuidDiffer ∧
    some Recover.BMDErr.uuidDiffer ≠ some Recover.BMDErr.uuidSplit := by
  exact ⟨by decide, by decide⟩

/-- Claim C7 amended: on the three target BMDs {UUID=A,v=3}, {UUID=A,v=5},
{UUID=B,v=7}, `recoverBuckets` with force unset returns the ClusterIntegrity
error "BMDs have different uuids with simple majority" (`errTgtBmdUUIDDiffer`)
and installs nothing, and with force set it installs the BMD with UUID=A at
version 5+100 and metasyncs it (src/ais/prxdl.go lines 3628-3684 and
3820-3863). -/
theorem recover_buckets_scenario_amended :
    Recover.recoverBuckets [⟨"A", 3⟩, ⟨"A", 5⟩, ⟨"B", 7⟩] false =
      ⟨some Recover.BMDErr.uuidDiffer, none, none⟩ ∧
    Recover.recoverBuckets [⟨"A", 3⟩, ⟨"A", 5⟩, ⟨"B", 7⟩] true =
      ⟨none, some ⟨"A", 105⟩, some ⟨"A", 105⟩⟩ := by
  exact ⟨by decide, by decide⟩

/-- Claim C3, counterexample: a HEAD object request whose query sets
check-exists is redirected to a Location that is NOT the selected target's URL
plus the original path and query extended with only the proxy-id and unix-time
parameters — `httpobjhead` appends one more check-exists=true parameter. -/
theorem object_redirect_head_counterexample :
    (Routing.httpobjhead true ⟨"P", none⟩
        ⟨"/v1/objects/b/o", "check-exists=true", "1.2.3.4:55"⟩
        ⟨"t1", "http://t1p", "http://t1c", "http://t1d"⟩ 7).location ≠
      Routing.specClaimedLocation ⟨"P", none⟩
        ⟨"/v1/objects/b/o", "check-exists=true", "1.2.3.4:55"⟩
        ⟨"t1", "http://t1p", "http://t1c", "http://t1d"⟩ 7 Routing.Network.intraControl ∧
    (Routing.httpobjhead true ⟨"P", none⟩
        ⟨"/v1/objects/b/o", "check-exists=true", "1.2.3.4:55"⟩
        ⟨"t1", "http://t1p", "http://t1c", "http://t1d"⟩ 7).status =
      StatusTemporaryRedirect := by
  exact ⟨by decide, by decide⟩

/-- Claim C3 amended: an object request routed to a target is redirected with
HTTP 301 for GET and 307 for PUT, DELETE and HEAD; the Location is the
selected target's URL (intra-data network for GET and PUT, intra-control for
DELETE and HEAD, public for clients outside the cluster CIDR) plus the
original request path and query extended with the proxy-id and unix-time
parameters — except that a HEAD request with the check-exists query flag set
additionally carries one more check-exists=true parameter (src/ais/prxdl.go
lines 684-695, 775-776, 824-825, 1727-1731, 1876-1907). -/
theorem object_redirects_amended (p : Routing.ProxyInfo) (r : Routing.Request)
    (si : Routing.Snode) (ts : Nat) (ce : Bool) :
    (Routing.httpobjget p r si ts).status = StatusMovedPermanently ∧
    (Routing.httpobjget p r si ts).location =
      Routing.specClaimedLocation p r si ts .intraData ∧
    (Routing.httpobjput p r si ts).status = StatusTemporaryRedirect ∧
    (Routing.httpobjput p r si ts).location =
      Routing.specClaimedLocation p r si ts .intraData ∧
    (Routing.httpobjdelete p r si ts).status = StatusTemporaryRedirect ∧
    (Routing.httpobjdelete p r si ts).location =
      Routing.specClaimedLocation p r si ts .intraControl ∧
    (Routing.httpobjhead ce p r si ts).status = StatusTemporaryRedirect ∧
    (Routing.httpobjhead ce p r si ts).location =
      (if ce then Routing.specClaimedLocation p r si ts .intraControl ++ "&check-exists=true"
       else Routing.specClaimedLocation p r si ts .intraControl) := by
  refine ⟨rfl, ?_, rfl, ?_, rfl, ?_, ?_, ?_⟩
  · exact Routing.redirectURL_eq_specClaimedLocation p r si ts _
  · exact Routing.redirectURL_eq_specClaimedLocation p r si ts _
  · exact Routing.redirectURL_eq_specClaimedLocation p r si ts _
  · cases ce <;> rfl
  · cases ce <;>
      simp [Routing.httpobjhead, Routing.redirectURL_eq_specClaimedLocation p r si ts]

theorem Download.collectLoop_abort {σ : Type} (pre : List (Download.CallRes σ))
    (r : Download.CallRes σ) (post : List (Download.CallRes σ))
    (h200 : r.status ≠ StatusOK) (h404 : r.status ≠ StatusNotFound) :
    ∀ (valid : List (Download.CallRes σ)) (cnt : Nat) (err : Option Download.AdminErr),
    (∀ x ∈ pre, x.status = StatusOK ∨ x.status = StatusNotFound) →
    Download.collectLoop (pre ++ r :: post) valid cnt err = .error (r.status, r.err) := by
  induction pre with
  | nil =>
    intro valid cnt err _
    simp only [List.nil_append]
    rw [Download.collectLoop, if_neg h200, if_pos h404]
  | cons a rest ih =>
    intro valid cnt err hpre
    have hrest : ∀ x ∈ rest, x.status = StatusOK ∨ x.status = StatusNotFound :=
      fun x hx => hpre x (List.mem_cons_of_mem a hx)
    rcases hpre a (List.mem_cons_self a rest) with h | h
    · rw [List.cons_append, Download.collectLoop, if_pos h]
      exact ih (valid ++ [a]) cnt err hrest
    · have h200a : a.status ≠ StatusOK := by rw [h]; decide
      rw [List.cons_append, Download.collectLoop, if_neg h200a, if_neg (not_not_intro h)]
      exact ih valid (cnt + 1) a.err hrest

theorem Download.collectLoop_clean {σ : Type} (results : List (Download.CallRes σ)) :
    ∀ (valid : List (Download.CallRes σ)) (cnt : Nat) (err : Option Download.AdminErr),
    (∀ x ∈ results, x.status = StatusOK ∨ x.status = StatusNotFound) →
    ∃ e, Download.collectLoop results valid cnt err =
      .ok (valid ++ results.filter (fun x => x.status == StatusOK),
        cnt + (results.filter (fun x => x.status == StatusNotFound)).length, e) := by
  induction results with
  | nil =>
    intro valid cnt err _
    exact ⟨err, by simp [Download.collectLoop]⟩
  | cons a rest ih =>
    intro valid cnt err hall
    have hrest : ∀ x ∈ rest, x.status = StatusOK ∨ x.status = StatusNotFound :=
      fun x hx => hall x (List.mem_cons_of_mem a hx)
    rcases hall a (List.mem_cons_self a rest) with h | h
    · obtain ⟨e, he⟩ := ih (valid ++ [a]) cnt err hrest
      refine ⟨e, ?_⟩
      rw [Download.collectLoop, if_pos h, he]
      have hb200 : (a.status == StatusOK) = true := by rw [h]; rfl
      have hb404 : (a.status == StatusNotFound) = false := by rw [h]; rfl
      simp [List.filter_cons, hb200, hb404]
    · obtain ⟨e, he⟩ := ih valid (cnt + 1) a.err hrest
      refine ⟨e, ?_⟩
      have h200a : a.status ≠ StatusOK := by rw [h]; decide
      rw [Download.collectLoop, if_neg h200a, if_neg (not_not_intro h), he]
      have hb200 : (a.status == StatusOK) = false := by rw [h]; rfl
      have hb404 : (a.status == StatusNotFound) = true := by rw [h]; rfl
      simp [List.filter_cons, hb200, hb404]
      omega

theorem Download.dlBroadcastPhase_eq_of_ok {σ : Type} (aggStatus : σ → σ → σ)
    (decodeJobs : σ → List (String × σ)) (aggJob : σ → σ → σ) (method : Method)
    (msg : Download.DlAdminBody) (results valid : List (Download.CallRes σ))
    (cnt : Nat) (e : Option Download.AdminErr) (hne : results ≠ [])
    (hok : Download.collectLoop results [] 0 none = .ok (valid, cnt, e)) :
    Download.dlBroadcastPhase aggStatus decodeJobs aggJob method msg results =
      Download.dlFinish aggStatus decodeJobs aggJob method msg results valid cnt e := by
  unfold Download.dlBroadcastPhase
  rw [if_neg (by simp [hne])]
  simp only [hok]

/-- Claim C1: for a download admin request fanned out to the targets, a result
whose status is neither 200 nor 404 — all earlier results being 200s or 404s —
aborts the broadcast, propagating that result's status and error; when every
responding target returns 404 the overall status is 404; otherwise the 200
responses are aggregated: the status-response fold for GET with an id, the
job-map merge for GET without an id, and the first valid response for DELETE
(src/ais/prxdl.go lines 51-129). -/
theorem download_admin_broadcast_failure_policy {σ : Type} (aggStatus : σ → σ → σ)
    (decodeJobs : σ → List (String × σ)) (aggJob : σ → σ → σ) (method : Method)
    (msg : Download.DlAdminBody) :
    (∀ (pre : List (Download.CallRes σ)) (r : Download.CallRes σ) post,
      (∀ x ∈ pre, x.status = StatusOK ∨ x.status = StatusNotFound) →
      r.status ≠ StatusOK → r.status ≠ StatusNotFound →
      Download.dlBroadcastPhase aggStatus decodeJobs aggJob method msg (pre ++ r :: post) =
        ⟨none, r.status, r.err, true⟩) ∧
    (∀ results, results ≠ [] → (∀ x ∈ results, x.status = StatusNotFound) →
      (Download.dlBroadcastPhase aggStatus decodeJobs aggJob method msg results).status =
        StatusNotFound) ∧
    (∀ results, (∀ x ∈ results, x.status = StatusOK ∨ x.status = StatusNotFound) →
      (∃ x ∈ results, x.status = StatusOK) →
      ((method = Method.get ∧ msg.id ≠ "") →
        Download.dlBroadcastPhase aggStatus decodeJobs aggJob method msg results =
          ⟨some (.statusResp ((results.filter (fun x => x.status == StatusOK)).foldl
              (fun acc r => Download.aggregateFold aggStatus acc r.payload) none)),
            StatusOK, none, true⟩) ∧
      ((method = Method.get ∧ msg.id = "") →
        Download.dlBroadcastPhase aggStatus decodeJobs aggJob method msg results =
          ⟨some (.jobList (Download.mergeJobMaps aggJob
              ((results.filter (fun x => x.status == StatusOK)).map
                (fun r => decodeJobs r.payload)))),
            StatusOK, none, true⟩) ∧
      (method = Method.delete →
        ∀ v vs, results.filter (fun x => x.status == StatusOK) = v :: vs →
        Download.dlBroadcastPhase aggStatus decodeJobs aggJob method msg results =
          ⟨some (.raw v.payload), StatusOK, v.err, true⟩)) := by
  refine ⟨fun pre r post hpre h200 h404 => ?_, fun results hne hall => ?_,
    fun results hall hex => ?_⟩
  · unfold Download.dlBroadcastPhase
    rw [if_neg (by simp), Download.collectLoop_abort pre r post h200 h404 [] 0 none hpre]
  · obtain ⟨e, he⟩ := Download.collectLoop_clean results [] 0 none
      (fun x hx => Or.inr (hall x hx))
    have hf200 : results.filter (fun x => x.status == StatusOK) = [] := by
      rw [List.filter_eq_nil_iff]
      intro x hx
      rw [hall x hx]
      decide
    have hf404 : results.filter (fun x => x.status == StatusNotFound) = results := by
      rw [List.filter_eq_self]
      intro x hx
      rw [hall x hx]
      rfl
    rw [hf200, hf404] at he
    simp only [List.append_nil, Nat.zero_add] at he
    rw [Download.dlBroadcastPhase_eq_of_ok aggStatus decodeJobs aggJob method msg results
      [] results.length e hne he]
    unfold Download.dlFinish
    rw [if_pos rfl]
  · obtain ⟨e, he⟩ := Download.collectLoop_clean results [] 0 none hall
    simp only [List.nil_append, Nat.zero_add] at he
    obtain ⟨x0, hx0, hx0s⟩ := hex
    have hne : results ≠ [] := by
      intro hnil
      rw [hnil] at hx0
      exact absurd hx0 (List.not_mem_nil x0)
    have hlt : (results.filter (fun x => x.status == StatusNotFound)).length <
        results.length := by
      rw [List.length_filter_lt_length_iff_exists]
      exact ⟨x0, hx0, by rw [hx0s]; decide⟩
    have hmain := Download.dlBroadcastPhase_eq_of_ok aggStatus decodeJobs aggJob method msg
      results (results.filter (fun x => x.status == StatusOK))
      ((results.filter (fun x => x.status == StatusNotFound)).length) e hne he
    refine ⟨fun hget => ?_, fun hget => ?_, fun hdel v vs hfv => ?_⟩
    · obtain ⟨hm, hid⟩ := hget
      subst hm
      rw [hmain]
      unfold Download.dlFinish
      rw [if_neg (Nat.ne_of_lt hlt)]
      simp only [if_neg hid]
    · obtain ⟨hm, hid⟩ := hget
      subst hm
      rw [hmain]
      unfold Download.dlFinish
      rw [if_neg (Nat.ne_of_lt hlt)]
      simp only [if_pos hid]
    · have hv200 : v.status = StatusOK := by
        have hvmem : v ∈ results.filter (fun x => x.status == StatusOK) := by
          rw [hfv]
          exact List.mem_cons_self v vs
        simpa using List.of_mem_filter hvmem
      subst hdel
      rw [hmain]
      unfold Download.dlFinish
      rw [if_neg (Nat.ne_of_lt hlt), hfv, ← hv200]

theorem download_admin_broadcast_failure_policy_witness :
    Download.dlBroadcastPhase (σ := Nat) (fun a b => a + b) (fun _ => [])
        (fun a b => a + b) Method.get ⟨"job", false⟩
        [⟨200, none, 1⟩, ⟨500, some (.nodeErr "boom"), 0⟩] =
      ⟨none, 500, some (.nodeErr "boom"), true⟩ ∧
    (Download.dlBroadcastPhase (σ := Nat) (fun a b => a + b) (fun _ => [])
        (fun a b => a + b) Method.get ⟨"job", false⟩
        [⟨404, some (.nodeErr "nf"), 0⟩]).status = 404 ∧
    Download.dlBroadcastPhase (σ := Nat) (fun a b => a + b) (fun _ => [])
        (fun a b => a + b) Method.get ⟨"job", false⟩
        [⟨200, none, 1⟩, ⟨404, none, 0⟩, ⟨200, none, 2⟩] =
      ⟨some (.statusResp (some 3)), 200, none, true⟩ := by
  obtain ⟨h1, h2, h3⟩ := download_admin_broadcast_failure_policy (σ := Nat)
    (fun a b => a + b) (fun _ => []) (fun a b => a + b) Method.get ⟨"job", false⟩
  refine ⟨?_, ?_, ?_⟩
  · exact (h1 [⟨200, none, 1⟩] ⟨500, some (.nodeErr "boom"), 0⟩ [] (by decide)
      (by decide) (by decide)).trans (by decide)
  · exact (h2 [⟨404, some (.nodeErr "nf"), 0⟩] (by decide) (by decide)).trans (by decide)
  · exact ((h3 [⟨200, none, 1⟩, ⟨404, none, 0⟩, ⟨200, none, 2⟩] (by decide)
      ⟨⟨200, none, 1⟩, by decide, rfl⟩).1 ⟨rfl, by decide⟩).trans (by decide)

end AIS
